import Mathlib

/-!
Verification of the review views of the Radar plagiarism-review system
(`src/review/views.py`), against its specification.

The embedding models the data the views read from the store (students,
submissions, comparisons) and the view-level computations:

* `marked_submissions` — the suspect aggregation (views.py lines 100-119);
* the POST branch of the `comparison` view (lines 63-70);
* the `build_graph` endpoint (lines 259-265).

`Comparison.update_review` (in `data/models.py`) and
`graph.generate_match_graph` (in `data/graph.py`) are not part of the
reviewed tree; they are modelled from the specification where needed and
marked as such in their doc comments.
-/

namespace Radar

structure Student where
  id : Nat
  key : String
deriving DecidableEq, Repr

structure Submission where
  student : Student
  created : Nat
deriving DecidableEq, Repr

structure Comparison where
  cid : Nat
  submission_a : Submission
  submission_b : Submission
  similarity : Rat
  review : Int
deriving DecidableEq, Repr

/-- One value of the `suspects` dict built by `marked_submissions`:
`{ 'key': s.key, 'sum': ..., 'comparisons': [...] }`. -/
structure SuspectEntry where
  key : String
  sum : Int
  comparisons : List Comparison
deriving DecidableEq, Repr

/-- Dict lookup by student id (`suspects[s.id]`), on an insertion-ordered
association list modelling the Python dict. -/
def entryFor (i : Nat) : List (Nat × SuspectEntry) → Option SuspectEntry
  | [] => none
  | p :: ds => if p.1 = i then some p.2 else entryFor i ds

/-- The body of the inner loop of `marked_submissions` for one student `s`
of a comparison `c`:
`if s.id not in suspects: suspects[s.id] = {'key': s.key, 'sum': 0, 'comparisons': []}`
then `suspects[s.id]['sum'] += c.review` and
`suspects[s.id]['comparisons'].append(c)`.
A present key is updated in place (dict order unchanged); an absent key is
appended at the end (dict insertion order). -/
def creditStudent (s : Student) (c : Comparison) : List (Nat × SuspectEntry) → List (Nat × SuspectEntry)
  | [] => [(s.id, { key := s.key, sum := c.review, comparisons := [c] })]
  | p :: ds =>
    if p.1 = s.id then
      (p.1, { p.2 with sum := p.2.sum + c.review, comparisons := p.2.comparisons ++ [c] }) :: ds
    else
      p :: creditStudent s c ds

/-- `for s in (c.submission_a.student, c.submission_b.student): ...` -/
def processComparison (d : List (Nat × SuspectEntry)) (c : Comparison) : List (Nat × SuspectEntry) :=
  creditStudent c.submission_b.student c (creditStudent c.submission_a.student c d)

/-- `for c in comparisons: ...` -/
def processComparisons (d : List (Nat × SuspectEntry)) : List Comparison → List (Nat × SuspectEntry)
  | [] => d
  | c :: cs => processComparisons (processComparison d c) cs

/-- Query order `order_by("submission_a__created")`. -/
def byCreated (c₁ c₂ : Comparison) : Prop :=
  c₁.submission_a.created ≤ c₂.submission_a.created

instance : DecidableRel byCreated := fun c₁ c₂ => Nat.decLe _ _

instance : IsTotal Comparison byCreated :=
  ⟨fun c₁ c₂ => Nat.le_total c₁.submission_a.created c₂.submission_a.created⟩

instance : IsTrans Comparison byCreated :=
  ⟨fun _ _ _ h₁ h₂ => Nat.le_trans h₁ h₂⟩

/-- The queryset of `marked_submissions`:
`Comparison.objects.filter(submission_a__exercise__course=course, review__gte=5).order_by("submission_a__created")`,
over the course's comparison list `cs`. -/
def qualifying (cs : List Comparison) : List Comparison :=
  (cs.filter (fun c => 5 ≤ c.review)).insertionSort byCreated

/-- The descending-by-sum order used by
`sorted(suspects.values(), reverse=True, key=lambda e: e['sum'])`.
Python's sort is stable, so equal sums keep their original (insertion)
order; a stable insertion sort in this relation models it exactly. -/
def bySumDesc (e₁ e₂ : SuspectEntry) : Prop :=
  e₂.sum ≤ e₁.sum

instance : DecidableRel bySumDesc := fun e₁ e₂ => Int.decLe _ _

instance : IsTotal SuspectEntry bySumDesc :=
  ⟨fun e₁ e₂ => Int.le_total e₂.sum e₁.sum⟩

instance : IsTrans SuspectEntry bySumDesc :=
  ⟨fun _ _ _ h₁ h₂ => Int.le_trans h₂ h₁⟩

/-- The `suspects` dict after the loops of `marked_submissions`. -/
def suspectsDict (cs : List Comparison) : List (Nat × SuspectEntry) :=
  processComparisons [] (qualifying cs)

/-- The suspect list rendered by `marked_submissions` (views.py 100-119):
`sorted(suspects.values(), reverse=True, key=lambda e: e['sum'])`. -/
def marked_submissions (cs : List Comparison) : List SuspectEntry :=
  ((suspectsDict cs).map Prod.snd).insertionSort bySumDesc

/-! ### Specification-side helpers for the aggregation

These recompute, per student id, what the loop of `marked_submissions`
should produce: the list of qualifying comparisons touching the student
(with one occurrence per endpoint), the sum of their review scores, and
the student record first encountered for an id. -/

/-- The occurrences of student id `i` among the two endpoints of `c`,
in the order the inner loop visits them. -/
def endpointOccurrences (i : Nat) (c : Comparison) : List Comparison :=
  (if c.submission_a.student.id = i then [c] else []) ++
    (if c.submission_b.student.id = i then [c] else [])

/-- All occurrences of student id `i` as an endpoint across a comparison
list, in iteration order. -/
def contribs (i : Nat) : List Comparison → List Comparison
  | [] => []
  | c :: cs => endpointOccurrences i c ++ contribs i cs

/-- Sum of the review scores of a comparison list. -/
def sumReviews : List Comparison → Int
  | [] => 0
  | c :: cs => c.review + sumReviews cs

/-- The student record under which id `i` is first credited while the
loop scans `cs` (the inner loop visits `submission_a`'s student first). -/
def firstStudent (i : Nat) : List Comparison → Option Student
  | [] => none
  | c :: cs =>
    if c.submission_a.student.id = i then some c.submission_a.student
    else if c.submission_b.student.id = i then some c.submission_b.student
    else firstStudent i cs

/-- The effect of one comparison credit on one (possibly absent) dict
entry for a fixed student id. -/
def pushComparison (e : Option SuspectEntry) (s : Student) (c : Comparison) : SuspectEntry :=
  match e with
  | none => { key := s.key, sum := c.review, comparisons := [c] }
  | some e₀ => { e₀ with sum := e₀.sum + c.review, comparisons := e₀.comparisons ++ [c] }

/-- The effect of processing one comparison on the dict entry of student
id `i`: both endpoints are visited, `submission_a`'s student first. -/
def stepEntry (e : Option SuspectEntry) (i : Nat) (c : Comparison) : Option SuspectEntry :=
  let e₁ := if c.submission_a.student.id = i then some (pushComparison e c.submission_a.student c) else e
  if c.submission_b.student.id = i then some (pushComparison e₁ c.submission_b.student c) else e₁

/-- The dict entry of student id `i` after processing a comparison list. -/
def processEntry (e : Option SuspectEntry) (i : Nat) : List Comparison → Option SuspectEntry
  | [] => e
  | c :: cs => processEntry (stepEntry e i c) i cs

/-- The two endpoint students of a comparison. -/
def studentsOf (c : Comparison) : List Student :=
  [c.submission_a.student, c.submission_b.student]

/-- All endpoint students of a comparison list. -/
def allStudents : List Comparison → List Student
  | [] => []
  | c :: cs => studentsOf c ++ allStudents cs

/-- Data integrity of the store: a student id determines the student key
(each id names one `Student` row). -/
def studentsConsistent (cs : List Comparison) : Prop :=
  ∀ s₁ ∈ allStudents cs, ∀ s₂ ∈ allStudents cs, s₁.id = s₂.id → s₁.key = s₂.key

/-- The ordering the specification claims for the suspect list: strictly
descending by sum, with ties strictly ascending by student key. -/
def c1Rel (e₁ e₂ : SuspectEntry) : Prop :=
  e₂.sum < e₁.sum ∨ (e₁.sum = e₂.sum ∧ e₁.key.data < e₂.key.data)

instance : DecidableRel c1Rel :=
  fun e₁ e₂ => inferInstanceAs (Decidable (Or _ _))

@[reducible] def claimOrdered (l : List SuspectEntry) : Prop :=
  l.Pairwise c1Rel

/-! ### Review State Machine -/

/-- Value of a decimal digit character, `none` on any other character. -/
def digitVal (ch : Char) : Option Nat :=
  if ch.isDigit then some (ch.toNat - 48) else none

/-- Accumulating decimal parse of a character list. -/
def parseNatAux : List Char → Nat → Option Nat
  | [], acc => some acc
  | ch :: rest, acc =>
    match digitVal ch with
    | none => none
    | some d => parseNatAux rest (acc * 10 + d)

/-- Decimal parse of a non-empty character list. -/
def parseNat : List Char → Option Nat
  | [] => none
  | l => parseNatAux l 0

/-- Integer parse of a string, modelling the `int(...)` conversion applied
to a submitted review score: optional leading minus, then decimal digits. -/
def parseInt (s : String) : Option Int :=
  match s.data with
  | '-' :: rest => (parseNat rest).map (fun n => -(n : Int))
  | l => (parseNat l).map (fun n => (n : Int))

/-- Modelled from the spec: `Comparison.update_review` is defined on the
`Comparison` model in `data/models.py`, which is not part of the reviewed
tree; only its caller, the `comparison` view, is. Spec 4.4 and 8: the
new score is validated against the allowed 0-10 scale; a valid score is
persisted and success returned; a malformed (unparseable) or out-of-range
score is rejected with no mutation and failure reported. The view passes
the raw POST string, so parsing is part of validation. -/
def update_review (c : Comparison) (new_score : String) : Comparison × Bool :=
  match parseInt new_score with
  | none => (c, false)
  | some r => if 0 ≤ r ∧ r ≤ 10 then ({ c with review := r }, true) else (c, false)

/-- Whether a raw new-score string passes the validation of
`update_review`. -/
def isValidScore (new_score : String) : Bool :=
  match parseInt new_score with
  | none => false
  | some r => decide (0 ≤ r ∧ r ≤ 10)

/-- The POST field name read by the `comparison` view. -/
def reviewField : String := "review"

/-- The comparison-with-updated-review and success flag computed by the
POST branch of the `comparison` view (views.py 67-68):
`result = "review" in request.POST and comparison.update_review(request.POST["review"])`. -/
def reviewResult (post : List (String × String)) (c : Comparison) : Comparison × Bool :=
  match post.lookup reviewField with
  | none => (c, false)
  | some v => update_review c v

/-- The JSON body `{"success": result}` returned to AJAX callers. -/
structure ReviewJson where
  success : Bool
deriving DecidableEq, Repr

/-- The POST branch of the `comparison` view (views.py 67-70): the stored
comparison afterwards, and the JSON response sent when the request is
AJAX (`None` models falling through to the HTML render). -/
def comparisonViewPost (post : List (String × String)) (isAjax : Bool) (c : Comparison) :
    Comparison × Option ReviewJson :=
  ((reviewResult post c).1,
    if isAjax then some { success := (reviewResult post c).2 } else none)

/-! ### Graph endpoint -/

/-- Error raised inside the graph builder. -/
inductive GraphError where
  | invalidArgument
  | storeFailure
deriving DecidableEq, Repr

/-- The node/edge structure serialized as JSON by the graph endpoint. -/
structure GraphData where
  nodes : List String
  edges : List (String × String × Rat)
deriving DecidableEq, Repr

/-- Possible outcomes of the `build_graph` view: the explicit 400
response, a JSON graph payload, or an exception escaping the view (the
view has no handler, so a builder error is not turned into a response). -/
inductive ViewResponse where
  | badRequest (msg : String)
  | json (g : GraphData)
  | uncaught (e : GraphError)
deriving DecidableEq, Repr

/-- Whether a response is the 400 error. -/
def ViewResponse.isBadRequest : ViewResponse → Bool
  | .badRequest _ => true
  | _ => false

/-- How the view turns the builder outcome into a response: a returned
graph is wrapped in `JsonResponse`; an error escapes. -/
def graphResponse : Except GraphError GraphData → ViewResponse
  | .ok g => .json g
  | .error e => .uncaught e

/-- The POST field name read by the `build_graph` view. -/
def minSimField : String := "minSimilarity"

/-- The 400 message of the `build_graph` view. -/
def bgMsg : String :=
  "Graph build arguments must contain minSimilarity in the body of a POST request."

/-- The `build_graph` view (views.py 259-265), parameterized by the graph
builder `gen` (`graph.generate_match_graph`, which lives in
`data/graph.py` outside the reviewed tree): if the POST body is empty or
lacks `minSimilarity`, respond 400; otherwise pass the raw field value to
the builder and return its graph as JSON. -/
def build_graph (gen : String → String → Except GraphError GraphData)
    (courseKey : String) (post : List (String × String)) : ViewResponse :=
  if post.isEmpty then .badRequest bgMsg
  else
    match post.lookup minSimField with
    | none => .badRequest bgMsg
    | some v => graphResponse (gen courseKey v)

/-- Modelled from the spec: `graph.generate_match_graph` is defined in
`data/graph.py`, which is not part of the reviewed tree. Spec 4.1: a
`min_similarity` that is not parseable as a number or is negative is an
InvalidArgument error; an empty result is an empty graph. This instance
covers a course with no comparisons and integer-string thresholds, which
suffices for the inputs considered here. -/
def generate_match_graph_spec (courseKey : String) (minSim : String) :
    Except GraphError GraphData :=
  match parseInt minSim with
  | none => .error .invalidArgument
  | some r => if r < 0 then .error .invalidArgument else .ok { nodes := [], edges := [] }

/-- Modelled from the spec: the Match Graph Builder of `data/graph.py` is
not part of the reviewed tree. Spec 4.1: retrieve the course comparisons
and, for each with `similarity ≥ min_similarity`, add an edge between the
two authoring students, labelled with the similarity. -/
def buildEdges (cs : List Comparison) (minSim : Rat) : List (String × String × Rat) :=
  (cs.filter (fun c => minSim ≤ c.similarity)).map
    (fun c => (c.submission_a.student.key, c.submission_b.student.key, c.similarity))

/-! ### Concrete store contents used by the witnesses

Course X of spec section 8: exercise E with submissions by students A, B,
C and comparisons (A,B) sim 0.9 review 0, (A,C) sim 0.4 review 7,
(B,C) sim 0.95 review 6. -/

def studentA : Student := { id := 1, key := "A" }

def studentB : Student := { id := 2, key := "B" }

def studentC : Student := { id := 3, key := "C" }

def subA : Submission := { student := studentA, created := 1 }

def subB : Submission := { student := studentB, created := 2 }

def subC : Submission := { student := studentC, created := 3 }

def cAB : Comparison :=
  { cid := 1, submission_a := subA, submission_b := subB,
    similarity := Rat.mk' 9 10 (by decide) (by decide), review := 0 }

def cAC : Comparison :=
  { cid := 2, submission_a := subA, submission_b := subC,
    similarity := Rat.mk' 2 5 (by decide) (by decide), review := 7 }

def cBC : Comparison :=
  { cid := 3, submission_a := subB, submission_b := subC,
    similarity := Rat.mk' 19 20 (by decide) (by decide), review := 6 }

def courseX : List Comparison := [cAB, cAC, cBC]

/-- The aggregate entry for student C on course X. -/
def entryC : SuspectEntry := { key := "C", sum := 13, comparisons := [cAC, cBC] }

/-- A course with a single flagged comparison whose `submission_a` author
has the lexicographically larger key: students "b" and "a" tie at sum 5. -/
def studentZ : Student := { id := 10, key := "b" }

def studentY : Student := { id := 11, key := "a" }

def subZ : Submission := { student := studentZ, created := 1 }

def subY : Submission := { student := studentY, created := 2 }

def cZY : Comparison :=
  { cid := 9, submission_a := subZ, submission_b := subY,
    similarity := Rat.mk' 1 2 (by decide) (by decide), review := 5 }

/-- A comparison both of whose submissions were authored by the same
student (a student compared against their own resubmission). -/
def subZ2 : Submission := { student := studentZ, created := 4 }

def cZZ : Comparison :=
  { cid := 12, submission_a := subZ, submission_b := subZ2,
    similarity := Rat.mk' 1 1 (by decide) (by decide), review := 8 }

/-- Concrete strings and thresholds used by the witnesses. -/
def courseKeyX : String := "X"

def s999 : String := "999"

def sNeg1 : String := "-1"

def s6 : String := "6"

def s0 : String := "0"

def tHalf : Rat := Rat.mk' 1 2 (by decide) (by decide)

def rat0 : Rat := Rat.mk' 0 1 (by decide) (by decide)

/-- The edge the builder produces from comparison `cAB`. -/
def edgeAB : String × String × Rat := ("A", "B", Rat.mk' 9 10 (by decide) (by decide))

/-- POST body carrying a negative threshold. -/
def postNeg : List (String × String) := [(minSimField, sNeg1)]

/-- POST body carrying threshold 0. -/
def postZero : List (String × String) := [(minSimField, s0)]

/-- POST body submitting review score "6" to the comparison view. -/
def postReview : List (String × String) := [(reviewField, s6)]

instance (cs : List Comparison) : Decidable (studentsConsistent cs) :=
  inferInstanceAs (Decidable (∀ s₁ ∈ allStudents cs, ∀ s₂ ∈ allStudents cs,
    s₁.id = s₂.id → s₁.key = s₂.key))

/-! ## The dict entry of a fixed student id through the loops -/

theorem entryFor_creditStudent (i : Nat) (s : Student) (c : Comparison)
    (d : List (Nat × SuspectEntry)) :
    entryFor i (creditStudent s c d) =
      if s.id = i then some (pushComparison (entryFor i d) s c) else entryFor i d := by
  induction d with
  | nil =>
    by_cases h : s.id = i <;> simp [creditStudent, entryFor, h, pushComparison]
  | cons p ds ih =>
    rw [creditStudent]
    by_cases hp : p.1 = s.id
    · rw [if_pos hp]
      by_cases hi : s.id = i
      · rw [entryFor, if_pos (hp.trans hi), if_pos hi, entryFor, if_pos (hp.trans hi),
          pushComparison]
      · have hpi : ¬ p.1 = i := fun hh => hi (hp ▸ hh)
        rw [entryFor, if_neg hpi, if_neg hi, entryFor, if_neg hpi]
    · rw [if_neg hp]
      by_cases hpi : p.1 = i
      · have hsi : ¬ s.id = i := fun hh => hp (by rw [hpi, hh])
        rw [entryFor, if_pos hpi, if_neg hsi, entryFor, if_pos hpi]
      · rw [entryFor, if_neg hpi, ih, entryFor, if_neg hpi]

theorem entryFor_processComparison (i : Nat) (c : Comparison)
    (d : List (Nat × SuspectEntry)) :
    entryFor i (processComparison d c) = stepEntry (entryFor i d) i c := by
  rw [processComparison, entryFor_creditStudent, entryFor_creditStudent, stepEntry]

theorem entryFor_processComparisons (i : Nat) (l : List Comparison) :
    ∀ d : List (Nat × SuspectEntry),
      entryFor i (processComparisons d l) = processEntry (entryFor i d) i l := by
  induction l with
  | nil => intro d; rfl
  | cons c cs ih =>
    intro d
    rw [processComparisons, ih, processEntry, entryFor_processComparison]

theorem sumReviews_append (l₁ l₂ : List Comparison) :
    sumReviews (l₁ ++ l₂) = sumReviews l₁ + sumReviews l₂ := by
  induction l₁ with
  | nil => simp [sumReviews]
  | cons c cs ih => simp [sumReviews, ih, add_assoc]

theorem contribs_cons (i : Nat) (c : Comparison) (cs : List Comparison) :
    contribs i (c :: cs) = endpointOccurrences i c ++ contribs i cs := rfl

theorem processEntry_eq (i : Nat) (l : List Comparison) :
    ∀ e : Option SuspectEntry,
      processEntry e i l =
        match e with
        | some e₀ =>
          some { e₀ with
            sum := e₀.sum + sumReviews (contribs i l)
            comparisons := e₀.comparisons ++ contribs i l }
        | none =>
          match firstStudent i l with
          | none => none
          | some s =>
            some { key := s.key
                   sum := sumReviews (contribs i l)
                   comparisons := contribs i l } := by
  induction l with
  | nil =>
    intro e
    match e with
    | none => rfl
    | some e₀ => simp [processEntry, contribs, sumReviews]
  | cons c cs ih =>
    intro e
    rw [processEntry, ih]
    by_cases ha : c.submission_a.student.id = i <;>
      by_cases hb : c.submission_b.student.id = i <;>
        match e with
        | none =>
          simp [stepEntry, pushComparison, firstStudent, contribs, endpointOccurrences,
            sumReviews, sumReviews_append, ha, hb, add_assoc]
        | some e₀ =>
          simp [stepEntry, pushComparison, firstStudent, contribs, endpointOccurrences,
            sumReviews, sumReviews_append, ha, hb, add_assoc]

/-! ## Dict keys are unique; membership determines the entry -/

theorem keys_creditStudent (s : Student) (c : Comparison) (d : List (Nat × SuspectEntry)) :
    (creditStudent s c d).map Prod.fst =
      if s.id ∈ d.map Prod.fst then d.map Prod.fst else d.map Prod.fst ++ [s.id] := by
  induction d with
  | nil => simp [creditStudent]
  | cons p ds ih =>
    rw [creditStudent]
    by_cases hp : p.1 = s.id
    · simp [hp]
    · have hps : ¬ s.id = p.1 := fun h => hp h.symm
      by_cases hm : s.id ∈ ds.map Prod.fst <;>
        simp [List.map_cons, List.mem_cons, hps, hm, ih, hp]

theorem nodup_keys_creditStudent (s : Student) (c : Comparison)
    (d : List (Nat × SuspectEntry)) (h : (d.map Prod.fst).Nodup) :
    ((creditStudent s c d).map Prod.fst).Nodup := by
  rw [keys_creditStudent]
  by_cases hm : s.id ∈ d.map Prod.fst
  · simpa [hm] using h
  · simp [hm, List.nodup_append, h]

theorem nodup_keys_processComparisons (l : List Comparison) :
    ∀ d, (d.map Prod.fst).Nodup → ((processComparisons d l).map Prod.fst).Nodup := by
  induction l with
  | nil => intro d h; exact h
  | cons c cs ih =>
    intro d h
    rw [processComparisons]
    exact ih _ (nodup_keys_creditStudent _ _ _ (nodup_keys_creditStudent _ _ _ h))

theorem entryFor_of_mem (i : Nat) (e : SuspectEntry) (d : List (Nat × SuspectEntry))
    (hnd : (d.map Prod.fst).Nodup) (hmem : (i, e) ∈ d) : entryFor i d = some e := by
  induction d with
  | nil => cases hmem
  | cons p ds ih =>
    rw [List.map_cons] at hnd
    have hnd' := List.nodup_cons.mp hnd
    rcases List.mem_cons.mp hmem with heq | hmem'
    · rw [← heq, entryFor]; simp
    · have hi : i ∈ ds.map Prod.fst := List.mem_map.mpr ⟨(i, e), hmem', rfl⟩
      have hp : ¬ p.1 = i := fun h => hnd'.1 (h ▸ hi)
      rw [entryFor, if_neg hp]
      exact ih hnd'.2 hmem'

theorem exists_id_of_mem_marked (cs : List Comparison) (e : SuspectEntry)
    (h : e ∈ marked_submissions cs) : ∃ i, entryFor i (suspectsDict cs) = some e := by
  rw [marked_submissions, List.mem_insertionSort] at h
  obtain ⟨p, hp, rfl⟩ := List.mem_map.mp h
  exact ⟨p.1, entryFor_of_mem p.1 p.2 _
    (nodup_keys_processComparisons (qualifying cs) [] (by simp)) hp⟩

/-! ## Members of contributing lists -/

theorem mem_contribs (c : Comparison) (i : Nat) (l : List Comparison)
    (h : c ∈ contribs i l) :
    c ∈ l ∧ (c.submission_a.student.id = i ∨ c.submission_b.student.id = i) := by
  induction l with
  | nil => cases h
  | cons c' cs ih =>
    rw [contribs_cons] at h
    rcases List.mem_append.mp h with h₁ | h₂
    · rw [endpointOccurrences] at h₁
      have hcc : c = c' ∧
          (c'.submission_a.student.id = i ∨ c'.submission_b.student.id = i) := by
        rcases List.mem_append.mp h₁ with ha | hb
        · by_cases haa : c'.submission_a.student.id = i
          · rw [if_pos haa] at ha
            exact ⟨List.mem_singleton.mp ha, Or.inl haa⟩
          · rw [if_neg haa] at ha; cases ha
        · by_cases hbb : c'.submission_b.student.id = i
          · rw [if_pos hbb] at hb
            exact ⟨List.mem_singleton.mp hb, Or.inr hbb⟩
          · rw [if_neg hbb] at hb; cases hb
      rcases hcc with ⟨rfl, hor⟩
      exact ⟨List.mem_cons_self _ _, hor⟩
    · have := ih h₂
      exact ⟨List.mem_cons_of_mem _ this.1, this.2⟩

theorem mem_qualifying (c : Comparison) (cs : List Comparison) (h : c ∈ qualifying cs) :
    c ∈ cs ∧ 5 ≤ c.review := by
  rw [qualifying, List.mem_insertionSort, List.mem_filter] at h
  exact ⟨h.1, by simpa using h.2⟩

theorem firstStudent_spec (i : Nat) (l : List Comparison) (s : Student)
    (h : firstStudent i l = some s) : s.id = i ∧ s ∈ allStudents l := by
  induction l with
  | nil => cases h
  | cons c cs ih =>
    rw [firstStudent] at h
    by_cases ha : c.submission_a.student.id = i
    · rw [if_pos ha] at h
      injection h with h'
      subst h'
      exact ⟨ha, by simp [allStudents, studentsOf]⟩
    · rw [if_neg ha] at h
      by_cases hb : c.submission_b.student.id = i
      · rw [if_pos hb] at h
        injection h with h'
        subst h'
        exact ⟨hb, by simp [allStudents, studentsOf]⟩
      · rw [if_neg hb] at h
        have := ih h
        exact ⟨this.1, by rw [allStudents]; exact List.mem_append.mpr (Or.inr this.2)⟩

theorem mem_allStudents_of_mem (s : Student) (c : Comparison) (l : List Comparison)
    (hc : c ∈ l) (hs : s ∈ studentsOf c) : s ∈ allStudents l := by
  induction l with
  | nil => cases hc
  | cons c' cs ih =>
    rw [allStudents]
    rcases List.mem_cons.mp hc with heq | h
    · exact List.mem_append.mpr (Or.inl (heq ▸ hs))
    · exact List.mem_append.mpr (Or.inr (ih h))

theorem exists_of_mem_allStudents (s : Student) (l : List Comparison)
    (h : s ∈ allStudents l) : ∃ c ∈ l, s ∈ studentsOf c := by
  induction l with
  | nil => cases h
  | cons c' cs ih =>
    rw [allStudents] at h
    rcases List.mem_append.mp h with h₁ | h₂
    · exact ⟨c', List.mem_cons_self _ _, h₁⟩
    · obtain ⟨c, hc, hs⟩ := ih h₂
      exact ⟨c, List.mem_cons_of_mem _ hc, hs⟩

/-! ## Sortedness and stability of the final sort -/

theorem filter_sum_orderedInsert (v : Int) (x : SuspectEntry) (l : List SuspectEntry) :
    (l.orderedInsert bySumDesc x).filter (fun e => decide (e.sum = v)) =
      if x.sum = v then x :: l.filter (fun e => decide (e.sum = v))
      else l.filter (fun e => decide (e.sum = v)) := by
  induction l with
  | nil =>
    by_cases hx : x.sum = v <;> simp [List.orderedInsert, hx]
  | cons y ys ih =>
    rw [List.orderedInsert]
    by_cases hxy : bySumDesc x y
    · rw [if_pos hxy]
      by_cases hx : x.sum = v <;> simp [hx]
    · rw [if_neg hxy]
      by_cases hx : x.sum = v
      · have hyv : ¬ y.sum = v := by
          intro hyv
          exact hxy (le_of_eq (hyv.trans hx.symm))
        simp [List.filter_cons, hx, hyv, ih]
      · by_cases hyv : y.sum = v <;> simp [List.filter_cons, hx, hyv, ih]

theorem filter_sum_insertionSort (v : Int) (l : List SuspectEntry) :
    (l.insertionSort bySumDesc).filter (fun e => decide (e.sum = v)) =
      l.filter (fun e => decide (e.sum = v)) := by
  induction l with
  | nil => rfl
  | cons x xs ih =>
    rw [List.insertionSort, filter_sum_orderedInsert]
    by_cases hx : x.sum = v <;> simp [List.filter_cons, hx, ih]

theorem entryFor_suspectsDict (cs : List Comparison) (i : Nat) :
    entryFor i (suspectsDict cs) =
      match firstStudent i (qualifying cs) with
      | none => none
      | some s =>
        some { key := s.key
               sum := sumReviews (contribs i (qualifying cs))
               comparisons := contribs i (qualifying cs) } := by
  rw [suspectsDict, entryFor_processComparisons]
  exact processEntry_eq i (qualifying cs) none

theorem entryFor_suspectsDict_none (cs : List Comparison) (i : Nat)
    (hfs : firstStudent i (qualifying cs) = none) :
    entryFor i (suspectsDict cs) = none := by
  rw [entryFor_suspectsDict, hfs]

theorem entryFor_suspectsDict_some (cs : List Comparison) (i : Nat) (s : Student)
    (hfs : firstStudent i (qualifying cs) = some s) :
    entryFor i (suspectsDict cs) =
      some { key := s.key
             sum := sumReviews (contribs i (qualifying cs))
             comparisons := contribs i (qualifying cs) } := by
  rw [entryFor_suspectsDict, hfs]

/-! ## Claim theorems -/

/-- C1 (amended): for every course contents, the suspect list of
`marked_submissions` is sorted in non-increasing order of summed review
score, and entries with any given sum appear in the same relative order
as in the dict values (insertion order of first crediting) — not in
ascending key order. -/
theorem marked_sorted_desc_stable (cs : List Comparison) (v : Int) :
    List.Sorted bySumDesc (marked_submissions cs) ∧
      (marked_submissions cs).filter (fun e => decide (e.sum = v)) =
        ((suspectsDict cs).map Prod.snd).filter (fun e => decide (e.sum = v)) :=
  ⟨List.sorted_insertionSort bySumDesc _, filter_sum_insertionSort v _⟩

/-- C1 (counterexample): on the single flagged comparison `cZY`, whose
`submission_a` author has key "b" and whose `submission_b` author has key
"a", both students tie at sum 5 and the output lists "b" before "a", so
ties are not in ascending key order. -/
theorem marked_ties_not_by_key : ¬ claimOrdered (marked_submissions [cZY]) := by decide

/-- C2: on course X (students A, B, C; comparisons (A,B) review 0,
(A,C) review 7, (B,C) review 6) the aggregation with cutoff 5 yields
C with total 13, then A with 7, then B with 6. -/
theorem suspects_courseX :
    marked_submissions courseX =
      [ entryC,
        { key := "A", sum := 7, comparisons := [cAC] },
        { key := "B", sum := 6, comparisons := [cBC] } ] := by decide

/-- C3: the dict entry of student id `i` is determined by the qualifying
comparisons (`review ≥ 5`, ordered by `submission_a.created`): its list
is exactly the occurrences of `i` as an endpoint (one per endpoint), its
sum is the sum of their review scores, and its key is the key under which
`i` was first credited; ids with no qualifying occurrence have no entry. -/
theorem suspects_entry_characterization (cs : List Comparison) (i : Nat) :
    entryFor i (suspectsDict cs) =
      match firstStudent i (qualifying cs) with
      | none => none
      | some s =>
        some { key := s.key
               sum := sumReviews (contribs i (qualifying cs))
               comparisons := contribs i (qualifying cs) } :=
  entryFor_suspectsDict cs i

/-- C5: a new review score that fails validation (unparseable, or outside
the 0-10 scale) leaves the comparison unchanged and reports failure. -/
theorem update_review_invalid_rejected (c : Comparison) (new_score : String)
    (h : isValidScore new_score = false) : update_review c new_score = (c, false) := by
  cases ht : parseInt new_score with
  | none => simp [update_review, ht]
  | some r =>
    simp only [isValidScore, ht, decide_eq_false_iff_not] at h
    simp [update_review, ht, h]

/-- C5 (witness): the out-of-range score "999" is rejected and leaves
comparison `cAB` unchanged. -/
theorem update_review_invalid_rejected_witness :
    isValidScore s999 = false ∧ update_review cAB s999 = (cAB, false) :=
  ⟨by decide, update_review_invalid_rejected cAB s999 (by decide)⟩

/-- C6 (counterexample): a non-AJAX POST to the `comparison` view — here
one carrying review score "6" — gets no `{success: bool}` result at all:
the view only answers with JSON when `request.is_ajax()`, and otherwise
falls through to the HTML render. -/
theorem comparison_post_nonajax_no_json :
    (comparisonViewPost postReview false cAB).2 = none := rfl

/-- C6 (amended): for every POST to the `comparison` view, the JSON
result `{"success": b}` — with `b` the boolean outcome of the review
update — is returned exactly when the request is AJAX; a non-AJAX POST
produces no such result (the view falls through to the HTML render). -/
theorem comparison_post_ajax_success_json (post : List (String × String)) (c : Comparison) :
    (comparisonViewPost post true c).2 = some { success := (reviewResult post c).2 } ∧
      (comparisonViewPost post false c).2 = none :=
  ⟨rfl, rfl⟩

/-- C7: re-submitting the same valid score is a no-op success: applying
`update_review` twice with one valid score yields the same stored state
as applying it once, and the second application reports success. -/
theorem update_review_idempotent (c : Comparison) (new_score : String)
    (h : isValidScore new_score = true) :
    (update_review (update_review c new_score).1 new_score).1 = (update_review c new_score).1 ∧
      (update_review (update_review c new_score).1 new_score).2 = true := by
  cases ht : parseInt new_score with
  | none => simp [isValidScore, ht] at h
  | some r =>
    have hr : 0 ≤ r ∧ r ≤ 10 := by simpa [isValidScore, ht] using h
    simp [update_review, ht, hr]

/-- C7 (witness): submitting score "6" to comparison `cAB` twice equals
submitting it once, and the re-submission succeeds. -/
theorem update_review_idempotent_witness :
    isValidScore s6 = true ∧
      ((update_review (update_review cAB s6).1 s6).1 = (update_review cAB s6).1 ∧
        (update_review (update_review cAB s6).1 s6).2 = true) :=
  ⟨by decide, update_review_idempotent cAB s6 (by decide)⟩

/-- C4 (counterexample): a POST carrying the negative threshold "-1"
is not answered with the 400 response: the view hands the raw value to
the graph builder and whatever happens there is not a 400-with-message. -/
theorem build_graph_neg_threshold_not_rejected :
    (build_graph generate_match_graph_spec courseKeyX postNeg).isBadRequest = false := by
  decide

/-- C4 (amended): the `build_graph` view returns the 400 error exactly
when the POST body is empty or has no `minSimilarity` field; a present
value — malformed or negative included — is passed to the graph builder
unvalidated and the builder's outcome is returned (its graph as JSON). -/
theorem build_graph_missing_only_validation
    (gen : String → String → Except GraphError GraphData) (k : String)
    (post : List (String × String)) :
    ((build_graph gen k post).isBadRequest
        = (post.isEmpty || (post.lookup minSimField).isNone)) ∧
      ∀ v, post.lookup minSimField = some v → post.isEmpty = false →
        build_graph gen k post = graphResponse (gen k v) := by
  constructor
  · rw [build_graph]
    by_cases he : post.isEmpty = true
    · rw [if_pos he]; simp [he, ViewResponse.isBadRequest]
    · rw [if_neg he]
      have he' : post.isEmpty = false := by simpa using he
      cases hl : post.lookup minSimField with
      | none => simp [he', ViewResponse.isBadRequest]
      | some v =>
        have hne : ¬ post = [] := by simp [List.isEmpty_iff] at he'; exact he'
        cases hg : gen k v with
        | ok g => simp [graphResponse, hg, ViewResponse.isBadRequest, hne]
        | error err => simp [graphResponse, hg, ViewResponse.isBadRequest, hne]
  · intro v hv he
    rw [build_graph, if_neg (by simp [he]), hv]

/-- C4 (amended, witness): a POST carrying threshold "0" is not rejected
and returns the builder's result for "0". -/
theorem build_graph_missing_only_validation_witness :
    (postZero.lookup minSimField = some s0 ∧ postZero.isEmpty = false) ∧
      build_graph generate_match_graph_spec courseKeyX postZero =
        graphResponse (generate_match_graph_spec courseKeyX s0) :=
  ⟨⟨by decide, by decide⟩,
    (build_graph_missing_only_validation generate_match_graph_spec courseKeyX postZero).2
      s0 (by decide) (by decide)⟩

/-- C8: raising the similarity threshold only removes edges: every edge
of the graph built at threshold `t₂` is an edge of the graph built at any
lower threshold `t₁`. -/
theorem buildEdges_monotone (cs : List Comparison) (t₁ t₂ : Rat) (h : t₁ < t₂) :
    ∀ e ∈ buildEdges cs t₂, e ∈ buildEdges cs t₁ := by
  intro e he
  rw [buildEdges, List.mem_map] at he ⊢
  obtain ⟨c, hc, rfl⟩ := he
  rw [List.mem_filter] at hc
  refine ⟨c, List.mem_filter.mpr ⟨hc.1, ?_⟩, rfl⟩
  have h2 : t₂ ≤ c.similarity := by simpa using hc.2
  simpa using le_trans h.le h2

/-- C8 (witness): on course X, the edge from comparison `cAB` survives
at threshold 1/2 and is also present at threshold 0. -/
theorem buildEdges_monotone_witness :
    rat0 < tHalf ∧ edgeAB ∈ buildEdges courseX rat0 :=
  ⟨by decide, buildEdges_monotone courseX rat0 tHalf (by decide) edgeAB (by decide)⟩

/-- C9: every entry of the suspect list has `sum` equal to the sum of the
review scores of its contributing list, and each contributing comparison
has review at least 5 and the entry's student as an endpoint (given that
student ids determine keys in the store data). -/
theorem marked_entries_sound (cs : List Comparison) (e : SuspectEntry)
    (hmem : e ∈ marked_submissions cs) (hcons : studentsConsistent cs) :
    e.sum = sumReviews e.comparisons ∧
      ∀ c ∈ e.comparisons, 5 ≤ c.review ∧
        (c.submission_a.student.key = e.key ∨ c.submission_b.student.key = e.key) := by
  obtain ⟨i, hi⟩ := exists_id_of_mem_marked cs e hmem
  cases hfs : firstStudent i (qualifying cs) with
  | none =>
    rw [entryFor_suspectsDict_none cs i hfs] at hi
    cases hi
  | some s =>
    rw [entryFor_suspectsDict_some cs i s hfs] at hi
    injection hi with hi'
    subst hi'
    refine ⟨rfl, ?_⟩
    intro c hc
    obtain ⟨hcq, hid⟩ := mem_contribs c i _ hc
    obtain ⟨hccs, hrev⟩ := mem_qualifying c cs hcq
    refine ⟨hrev, ?_⟩
    obtain ⟨hsid, hsmem⟩ := firstStudent_spec i _ s hfs
    obtain ⟨c', hc', hs'⟩ := exists_of_mem_allStudents s _ hsmem
    have hsl : s ∈ allStudents cs :=
      mem_allStudents_of_mem s c' cs (mem_qualifying c' cs hc').1 hs'
    rcases hid with hida | hidb
    · left
      have hael : c.submission_a.student ∈ allStudents cs :=
        mem_allStudents_of_mem _ c cs hccs (by simp [studentsOf])
      exact hcons _ hael _ hsl (hida.trans hsid.symm)
    · right
      have hbel : c.submission_b.student ∈ allStudents cs :=
        mem_allStudents_of_mem _ c cs hccs (by simp [studentsOf])
      exact hcons _ hbel _ hsl (hidb.trans hsid.symm)

/-- C9 (witness): on course X, the entry of student C is in the output,
its sum 13 is the sum of its contributing reviews, and its contributing
comparison `cAC` is flagged and has C as an endpoint. -/
theorem marked_entries_sound_witness :
    (entryC ∈ marked_submissions courseX ∧ studentsConsistent courseX) ∧
      entryC.sum = sumReviews entryC.comparisons ∧
      (5 ≤ cAC.review ∧
        (cAC.submission_a.student.key = entryC.key ∨
          cAC.submission_b.student.key = entryC.key)) :=
  ⟨⟨by decide, by decide⟩,
    (marked_entries_sound courseX entryC (by decide) (by decide)).1,
    (marked_entries_sound courseX entryC (by decide) (by decide)).2 cAC (by decide)⟩

/-- C10: processing a comparison whose two submissions have the same
author credits that student twice: the review score is added twice (so
2 × review in total) and the comparison is appended twice to the
student's contributing list. -/
theorem processComparison_same_student_double (d : List (Nat × SuspectEntry)) (c : Comparison)
    (h : c.submission_a.student = c.submission_b.student) :
    entryFor c.submission_a.student.id (processComparison d c) =
      some (match entryFor c.submission_a.student.id d with
        | none =>
          { key := c.submission_a.student.key
            sum := 2 * c.review
            comparisons := [c, c] }
        | some e =>
          { e with
            sum := e.sum + 2 * c.review
            comparisons := e.comparisons ++ [c, c] }) := by
  rw [entryFor_processComparison]
  have hb : c.submission_b.student.id = c.submission_a.student.id := by rw [← h]
  cases hd : entryFor c.submission_a.student.id d with
  | none => simp [stepEntry, pushComparison, hb, two_mul]
  | some e₀ => simp [stepEntry, pushComparison, hb, two_mul, add_assoc]

/-- C10 (witness): the self-comparison `cZZ` (review 8), processed into
an empty dict, yields for its author the sum 16 and the list [cZZ, cZZ]. -/
theorem processComparison_same_student_double_witness :
    cZZ.submission_a.student = cZZ.submission_b.student ∧
      entryFor cZZ.submission_a.student.id (processComparison [] cZZ) =
        some { key := cZZ.submission_a.student.key
               sum := 2 * cZZ.review
               comparisons := [cZZ, cZZ] } :=
  ⟨by decide, processComparison_same_student_double [] cZZ (by decide)⟩

end Radar
